import Mathlib

/-!
Verification of the telescope-python client core against its specification.

The definitions below are a shallow embedding of the repository's source:

* `src/telescope/context.py` — the thread-local context store.  Python dicts
  are mutable heap objects, and the store's behaviour (in particular the
  shallow `.copy()` taken by `with_context`) depends on object identity, so
  the embedding models dict objects as references into an explicit heap.
* `src/telescope/client.py` — event construction and transport.
* `src/telescope/integrations/base.py` and
  `src/telescope/integrations/registry.py` — the integration lifecycle.
* `src/telescope/decorators.py` — `capture_errors`, `performance_monitor`,
  `retry_with_telemetry`.

Environment-supplied data (wall-clock timestamps, the platform/runtime info,
exception tracebacks, the OpenTelemetry active span, `uuid.uuid4()` draws and
measured durations) enter the embedding as explicit inputs.
-/

namespace Telescope

/-- A Python `dict` value with string keys, in insertion order.  The
operations below reproduce CPython dict semantics: assignment to an existing
key updates it in place (keeping its position), assignment to a new key
appends it. -/
abbrev Dict (V : Type) := List (String × V)

namespace Dict

/-- Key lookup, `d.get(k)` / `d[k]`. -/
def find {V : Type} (d : Dict V) (k : String) : Option V :=
  match d with
  | [] => none
  | (k', v) :: rest => if k' = k then some v else find rest k

/-- Single-key assignment `d[k] = v`: overwrite in place if present,
append otherwise. -/
def setKey {V : Type} (d : Dict V) (k : String) (v : V) : Dict V :=
  match d with
  | [] => [(k, v)]
  | (k', v') :: rest => if k' = k then (k, v) :: rest else (k', v') :: setKey rest k v

/-- `d.update(u)`: assign every pair of `u` into `d`, left to right. -/
def update {V : Type} (d u : Dict V) : Dict V :=
  u.foldl (fun acc kv => setKey acc kv.1 kv.2) d

/-- Membership test `k in d`. -/
def hasKey {V : Type} (d : Dict V) (k : String) : Bool :=
  (find d k).isSome

end Dict

/-! ### The context store (`src/telescope/context.py`)

`_local.context` is a dict mapping the keys `"user"`, `"tags"`, `"extra"` to
dict objects.  Those inner dicts are mutable heap objects; `set_tags` /
`set_extra` mutate them in place while `set_user_context` rebinds the
`"user"` entry to a freshly allocated dict.  The heap is explicit so that
the shallow copy taken by `with_context.__enter__` is modelled exactly:
copying the top-level dict copies the references, not the inner dicts.

Context values are modelled as strings; every operation of the store is
value-agnostic, so this loses nothing relevant. -/

/-- The state behind `_local` in `context.py`: a heap of dict objects
(addressed by allocation index), the next fresh address, and the optional
`_local.context` attribute, a dict from sub-map name to heap address. -/
structure Store where
  heap : Nat → Dict String
  nextRef : Nat
  ctx : Option (Dict Nat)

/-- A fresh thread: no `context` attribute set yet. -/
def Store.init : Store :=
  { heap := fun _ => [], nextRef := 0, ctx := none }

/-- Overwrite the dict object at address `r` (an in-place `dict` mutation). -/
def Store.write (s : Store) (r : Nat) (d : Dict String) : Store :=
  { heap := fun r' => if r' = r then d else s.heap r'
    nextRef := s.nextRef
    ctx := s.ctx }

/-- The `if not hasattr(_local, "context"): _local.context = {}` prelude
shared by all three mutators. -/
def Store.ensureCtx (s : Store) : Store :=
  match s.ctx with
  | none => { heap := s.heap, nextRef := s.nextRef, ctx := some [] }
  | some _ => s

/-- The current `_local.context` dict value (`getattr(_local, "context", {})`). -/
def Store.ctxDict (s : Store) : Dict Nat :=
  s.ctx.getD []

/-- Python truthiness of an optional-string keyword argument: `None` and the
empty string are falsy. -/
def truthyStr : Option String → Bool
  | none => false
  | some s => !(s = "")

/-- Helper for `set_user_context`: add field `k` when the argument is truthy. -/
def addIfTruthy (d : Dict String) (k : String) (v : Option String) : Dict String :=
  match v with
  | none => d
  | some s => if s = "" then d else Dict.setKey d k s

/-- The `user_context` dict assembled by `set_user_context` from its
arguments: `id`/`username`/`email` when truthy, then `update(extra_fields)`. -/
def buildUser (user_id username email : Option String) (extra_fields : Dict String) :
    Dict String :=
  Dict.update (addIfTruthy (addIfTruthy (addIfTruthy [] "id" user_id)
    "username" username) "email" email) extra_fields

/-- `set_user_context` from `context.py`: builds a fresh `user_context` dict
and assigns it to `_local.context["user"]` (rebinding, not merging). -/
def set_user_context (user_id username email : Option String)
    (extra_fields : Dict String) (s0 : Store) : Store :=
  let s := s0.ensureCtx
  let uc := buildUser user_id username email extra_fields
  { heap := fun x => if x = s.nextRef then uc else s.heap x
    nextRef := s.nextRef + 1
    ctx := some (Dict.setKey s.ctxDict "user" s.nextRef) }

/-- Common body of `set_tags` / `set_extra`: ensure `_local.context[key]`
exists (allocating an empty dict if not), then `.update(kwargs)` it in
place. -/
def setMergeKey (key : String) (kwargs : Dict String) (s0 : Store) : Store :=
  let s := s0.ensureCtx
  match Dict.find s.ctxDict key with
  | some r => s.write r (Dict.update (s.heap r) kwargs)
  | none =>
      let s' : Store :=
        { heap := fun x => if x = s.nextRef then [] else s.heap x
          nextRef := s.nextRef + 1
          ctx := some (Dict.setKey s.ctxDict key s.nextRef) }
      s'.write s.nextRef (Dict.update (s'.heap s.nextRef) kwargs)

/-- `set_tags(**tags)` from `context.py`. -/
def set_tags (tags : Dict String) (s : Store) : Store :=
  setMergeKey "tags" tags s

/-- `set_extra(**extra)` from `context.py`. -/
def set_extra (extra : Dict String) (s : Store) : Store :=
  setMergeKey "extra" extra s

/-- `clear_context()` from `context.py`. -/
def clear_context (s : Store) : Store :=
  match s.ctx with
  | none => s
  | some _ => { heap := s.heap, nextRef := s.nextRef, ctx := some [] }

/-- The deep value of `get_context()`: each sub-map read through the heap.
Python `==` on the returned nested dicts is structural, which this captures
(the store only ever binds the keys `"user"`, `"tags"`, `"extra"`). -/
structure CtxSnapshot where
  user : Option (Dict String)
  tags : Option (Dict String)
  extra : Option (Dict String)
deriving DecidableEq, Repr

/-- Read the full current context, dereferencing the heap. -/
def Store.snapshot (s : Store) : CtxSnapshot :=
  { user := (Dict.find s.ctxDict "user").map s.heap
    tags := (Dict.find s.ctxDict "tags").map s.heap
    extra := (Dict.find s.ctxDict "extra").map s.heap }

/-- Exit status of a wrapped unit of work. -/
inductive Exit
  | normal
  | raised
deriving DecidableEq, Repr

/-- Dispatch of one `context_data` item inside `with_context.__enter__`:
`"user"` spreads its dict into `set_user_context(**value)` (the keys
`user_id`/`username`/`email` become the named parameters, the rest become
`extra_fields`), `"tags"`/`"extra"` go to the merging mutators, anything
else is ignored by the `if/elif` chain. -/
def applyContextItem (s : Store) (kv : String × Dict String) : Store :=
  if kv.1 = "user" then
    set_user_context (Dict.find kv.2 "user_id") (Dict.find kv.2 "username")
      (Dict.find kv.2 "email")
      (kv.2.filter (fun p =>
        !(p.1 = "user_id" || p.1 = "username" || p.1 = "email"))) s
  else if kv.1 = "tags" then set_tags kv.2 s
  else if kv.1 = "extra" then set_extra kv.2 s
  else s

/-- `with_context(**context_data)` from `context.py`, run around a unit of
work.  `__enter__` saves `get_context().copy()` — a SHALLOW copy, so only
the top-level dict of references is saved — then applies the items;
`__exit__` rebinds `_local.context` to the saved dict on every exit path. -/
def with_context (context_data : List (String × Dict String))
    (work : Store → Store × Exit) (s : Store) : Store × Exit :=
  let original := s.ctxDict
  let s1 := context_data.foldl applyContextItem s
  let (s2, ex) := work s1
  let s3 : Store :=
    match s2.ctx with
    | none => s2
    | some _ => { heap := s2.heap, nextRef := s2.nextRef, ctx := some original }
  (s3, ex)

/-! ### Call sequences over the context store (for §8's merge property)

`CtxCall` records one mutator invocation; `absStep` is the spec-level view
of one call on the deep snapshot (merge for tags/extra, rebuild for user),
used to compare the heap-level store against the specified merge
semantics. -/

/-- One mutator call on the context store. -/
inductive CtxCall
  | tags (kwargs : Dict String)
  | extra (kwargs : Dict String)
  | user (user_id username email : Option String) (extra_fields : Dict String)
deriving Repr

/-- Run one mutator call. -/
def execCall (s : Store) : CtxCall → Store
  | .tags d => set_tags d s
  | .extra d => set_extra d s
  | .user a b c d => set_user_context a b c d s

/-- Run a sequence of mutator calls. -/
def execCalls (s : Store) (cs : List CtxCall) : Store :=
  cs.foldl execCall s

/-- Spec-level effect of one call on the deep snapshot: `set_tags` and
`set_extra` merge-update their sub-map, `set_user_context` rebinds the user
sub-map to the freshly built dict. -/
def absStep (a : CtxSnapshot) : CtxCall → CtxSnapshot
  | .tags d => { a with tags := some (Dict.update (a.tags.getD []) d) }
  | .extra d => { a with extra := some (Dict.update (a.extra.getD []) d) }
  | .user uid un em ef => { a with user := some (buildUser uid un em ef) }

/-- Spec-level effect of a call sequence. -/
def absExec (a : CtxSnapshot) (cs : List CtxCall) : CtxSnapshot :=
  cs.foldl absStep a

/-! ### The client (`src/telescope/client.py`)

`capture_exception` / `capture_message` build the event payload from their
arguments and the active OpenTelemetry span, then hand it to `_send_event`.
The environment-supplied inputs are explicit: the `uuid.uuid4()` draw, the
active span, the exception's message/type.  The `timestamp`, `stack_trace`
and `contexts.runtime`/`contexts.baggage` payload entries are wall-clock,
traceback and OTel-environment queries with no bearing on the claims and
are not modelled. -/

/-- Models `uuid.uuid4()`: the `n`-th draw of the process-wide
fresh-identifier supply.  Draw-distinctness models uuid4
collision-freeness; every draw is a non-empty string. -/
def uuid4 (n : Nat) : String :=
  String.mk (List.replicate (n + 1) 'u')

/-- The active OpenTelemetry span as seen by `trace.get_current_span()`:
128-bit trace id, 64-bit span id, and its recording flag (`none` models a
falsy current span). -/
structure SpanInfo where
  traceId : Nat
  spanId : Nat
  isRecording : Bool
deriving DecidableEq, Repr

/-- Minimal-length lowercase hex digits of `n`, as produced by Python's
`format(n, "x")` (a single `"0"` for zero). -/
def hexDigits (n : Nat) : List Char :=
  if _h : n < 16 then [Nat.digitChar n]
  else hexDigits (n / 16) ++ [Nat.digitChar (n % 16)]
decreasing_by exact Nat.div_lt_self (by omega) (by omega)

/-- Python `format(n, "0<w>x")`: hex digits left-padded with zeros to width
`w`. -/
def pyHex (w n : Nat) : String :=
  String.mk (List.replicate (w - (hexDigits n).length) '0' ++ hexDigits n)

/-- The `contexts.trace` sub-object of an event (present only when a
recording span was active at capture time). -/
structure TraceCtx where
  trace_id : String
  span_id : String
deriving DecidableEq, Repr

/-- The event payload fields relevant to the claims (see the module comment
for the unmodelled environment-query fields).  `user = none` models a
payload with no `user` key (`capture_message` builds none). -/
structure Event where
  event_id : String
  level : String
  event_type : String
  message : String
  exception_type : Option String
  trace : Option TraceCtx
  tags : Dict String
  extra : Dict String
  user : Option (Dict String)
  fingerprint : Option (List String)
deriving DecidableEq, Repr

/-- The `contexts.trace` entry built by both capture methods: the ids of the
current span formatted `"032x"`/`"016x"` when it is truthy and recording,
the empty dict (`none`) otherwise. -/
def traceContext (span : Option SpanInfo) : Option TraceCtx :=
  match span with
  | none => none
  | some sp =>
      if sp.isRecording then
        some { trace_id := pyHex 32 sp.traceId, span_id := pyHex 16 sp.spanId }
      else none

/-- `TelescopeClient.capture_exception` event construction: fresh event id,
trace context from the active span, `tags or {}` / `extra or {}` /
`user or {}` taken from the caller's arguments only. -/
def capture_exception (n : Nat) (span : Option SpanInfo)
    (excMessage excType : String) (level : String)
    (tags extra user : Option (Dict String))
    (fingerprint : Option (List String)) : Event :=
  { event_id := uuid4 n
    level := level
    event_type := "error"
    message := excMessage
    exception_type := some excType
    trace := traceContext span
    tags := tags.getD []
    extra := extra.getD []
    user := some (user.getD [])
    fingerprint := fingerprint }

/-- `TelescopeClient.capture_message` event construction: like
`capture_exception` but with `event_type = "message"` and no
exception/user/fingerprint entries. -/
def capture_message (n : Nat) (span : Option SpanInfo)
    (message : String) (level : String)
    (tags extra : Option (Dict String)) : Event :=
  { event_id := uuid4 n
    level := level
    event_type := "message"
    message := message
    exception_type := none
    trace := traceContext span
    tags := tags.getD []
    extra := extra.getD []
    user := none
    fingerprint := none }

/-- Outcome of the single `session.post` transport attempt. -/
inductive TransportOutcome
  | httpStatus (code : Nat)
  | netError (msg : String)
deriving DecidableEq, Repr

/-- What `_send_event` did: delivered, or logged a failure line. -/
inductive SendResult
  | sentOk
  | failureLogged (line : String)
deriving DecidableEq, Repr

/-- The raw network call inside `_send_event`'s `try` block: a status code,
or a raised exception. -/
def postEvent (outcome : TransportOutcome) : Except String Nat :=
  match outcome with
  | .httpStatus code => .ok code
  | .netError msg => .error msg

/-- `TelescopeClient._send_event`: the whole body is inside
`try/except Exception`; a non-2xx status or a raised error is only
printed, never propagated. -/
def send_event (outcome : TransportOutcome) : SendResult :=
  match postEvent outcome with
  | .ok code =>
      if code = 200 || code = 201 || code = 202 then .sentOk
      else .failureLogged ("Failed to send event to Telescope: " ++ toString code)
  | .error e => .failureLogged ("Error sending event to Telescope: " ++ e)

/-- A full `capture_exception` call including the transport hand-off, typed
so that a raised exception would be visible as `.error`: the body never
produces one. -/
def capture_exception_run (n : Nat) (span : Option SpanInfo)
    (excMessage excType : String) (level : String)
    (tags extra user : Option (Dict String)) (fingerprint : Option (List String))
    (outcome : TransportOutcome) : Except String (Event × SendResult × String) :=
  let ev := capture_exception n span excMessage excType level tags extra user fingerprint
  let sent := send_event outcome
  .ok (ev, sent, ev.event_id)

/-- A full `capture_message` call including the transport hand-off. -/
def capture_message_run (n : Nat) (span : Option SpanInfo)
    (message : String) (level : String) (tags extra : Option (Dict String))
    (outcome : TransportOutcome) : Except String (Event × SendResult × String) :=
  let ev := capture_message n span message level tags extra
  let sent := send_event outcome
  .ok (ev, sent, ev.event_id)

/-! ### `capture_context_in_exception` (`src/telescope/context.py`)

Reads the live context dicts, merges the caller's `user`/`tags`/`extra`
into them (the `update` calls mutate the store's dicts in place, which the
returned store reflects), routes all remaining keyword arguments into
`extra`, and calls `client.capture_exception` with `x if x else None` for
each merged map. -/

/-- `m if m else None`: a Python empty dict is falsy. -/
def noneIfEmpty (d : Dict String) : Option (Dict String) :=
  if d.isEmpty then none else some d

/-- Write a merged sub-map back to the heap when it came from a live store
dict (the in-place `update`); a merge into the fresh `{}` fallback touches
no object. -/
def writeBack (s : Store) (ref : Option Nat) (d : Dict String) : Store :=
  match ref with
  | some r => s.write r d
  | none => s

/-- `capture_context_in_exception(exception, **additional_context)`.
`clientBound = false` models `get_client()` returning `None` (no capture).
`userAdd`/`tagsAdd`/`extraAdd` are the special keys of
`additional_context`, `rest` its remaining items in order. -/
def capture_context_in_exception (clientBound : Bool) (n : Nat)
    (span : Option SpanInfo) (excMessage excType : String)
    (userAdd tagsAdd extraAdd : Option (Dict String)) (rest : Dict String)
    (s : Store) : Option Event × Store :=
  if !clientBound then (none, s)
  else
    let c := s.ctxDict
    let userRef := Dict.find c "user"
    let tagsRef := Dict.find c "tags"
    let extraRef := Dict.find c "extra"
    let user0 := (userRef.map s.heap).getD []
    let tags0 := (tagsRef.map s.heap).getD []
    let extra0 := (extraRef.map s.heap).getD []
    let user1 := match userAdd with
      | some d => Dict.update user0 d
      | none => user0
    let s1 := match userAdd with
      | some _ => writeBack s userRef user1
      | none => s
    let tags1 := match tagsAdd with
      | some d => Dict.update tags0 d
      | none => tags0
    let s2 := match tagsAdd with
      | some _ => writeBack s1 tagsRef tags1
      | none => s1
    let extra1 := match extraAdd with
      | some d => Dict.update extra0 d
      | none => extra0
    let s3 := match extraAdd with
      | some _ => writeBack s2 extraRef extra1
      | none => s2
    let extra2 := Dict.update extra1 rest
    let s4 := writeBack s3 extraRef extra2
    let ev := capture_exception n span excMessage excType "error"
      (noneIfEmpty tags1) (noneIfEmpty extra2) (noneIfEmpty user1) none
    (some ev, s4)

/-! ### Integration lifecycle (`src/telescope/integrations/base.py`) -/

/-- What a hook does when invoked: return normally, raise `DidNotEnable`,
or raise some other exception. -/
inductive HookBehavior
  | ok
  | didNotEnable (msg : String)
  | failure (msg : String)
deriving DecidableEq, Repr

/-- An integration descriptor: its `identifier` class attribute (`""`
models the falsy `None` default) and the behavior of its two hooks. -/
structure Integ where
  identifier : String
  setupOnce : HookBehavior
  setupClient : HookBehavior
deriving DecidableEq, Repr

/-- The mutable state of an `IntegrationRegistry`: its `_processed` and
`_installed` sets (as lists with membership). -/
structure RegistryState where
  processed : List String
  installed : List String
deriving DecidableEq, Repr

/-- A fresh `IntegrationRegistry()`. -/
def RegistryState.empty : RegistryState :=
  { processed := [], installed := [] }

/-- How many times each hook was invoked during one `setup` call. -/
structure SetupTrace where
  setupOnceRuns : Nat
  setupRuns : Nat
deriving DecidableEq, Repr

/-- `IntegrationRegistry.setup(client, integration)`: guarded by a truthy,
not-yet-processed identifier; `setup_once()` then `setup(client)` inside
`try`, with `DidNotEnable` and `Exception` both caught (only logged
differently); the identifier is added to `_processed` after the
`try/except` on every path, to `_installed` only when both hooks return
normally. -/
def registrySetup (s : RegistryState) (g : Integ) : RegistryState × SetupTrace :=
  if g.identifier = "" then (s, ⟨0, 0⟩)
  else if g.identifier ∈ s.processed then (s, ⟨0, 0⟩)
  else
    let (onceRuns, setupRuns, install) :=
      match g.setupOnce with
      | .ok =>
          match g.setupClient with
          | .ok => (1, 1, true)
          | _ => (1, 1, false)
      | _ => (1, 0, false)
    ({ processed := s.processed ++ [g.identifier]
       installed := if install then s.installed ++ [g.identifier] else s.installed },
     ⟨onceRuns, setupRuns⟩)

/-! ### `setup_integrations` (`src/telescope/integrations/registry.py`) -/

/-- An exception value of the registry module: `DidNotEnable` or any other
`Exception`. -/
inductive PyError
  | didNotEnable (msg : String)
  | other (msg : String)
deriving DecidableEq, Repr

/-- A Python version tuple; comparison is lexicographic with the shorter
tuple smaller on a tie. -/
abbrev Version := List Nat

/-- Python tuple `<` on version tuples. -/
def versionLt : Version → Version → Bool
  | _, [] => false
  | [], _ :: _ => true
  | a :: as, b :: bs => if a < b then true else if b < a then false else versionLt as bs

/-- The module-level `_MIN_VERSIONS` table. -/
def MIN_VERSIONS : Dict Version :=
  [("django", [1, 8]), ("flask", [1, 1, 4]), ("fastapi", [0, 79, 0]),
   ("starlette", [0, 16]), ("quart", [0, 16, 0]), ("sanic", [0, 8]),
   ("tornado", [6, 0]), ("aiohttp", [3, 4]), ("sqlalchemy", [1, 2]),
   ("redis", [3, 0]), ("celery", [4, 4, 7]), ("openai", [1, 0, 0]),
   ("requests", [2, 0, 0])]

/-- `_check_minimum_version(integration, version, package)`: raises
`DidNotEnable` on an unparsable (`None`) version, passes when the
identifier has no minimum entry, raises `DidNotEnable` when the version is
below the minimum. -/
def check_minimum_version (identifier : String) (version : Option Version)
    (package : Option String) : Except PyError Unit :=
  let pkg := match package with
    | some p => if p = "" then identifier else p
    | none => identifier
  match version with
  | none => .error (.didNotEnable ("Unparsable " ++ pkg ++ " version."))
  | some v =>
      match Dict.find MIN_VERSIONS identifier with
      | none => .ok ()
      | some minv =>
          if versionLt v minv then
            .error (.didNotEnable ("Integration only supports " ++ pkg ++ " " ++
              String.intercalate "." (minv.map toString) ++ " or newer."))
          else .ok ()

/-- The per-descriptor body of the `setup_integrations` loop: skip when
disabled, else `_check_minimum_version(type(integration), None)` — note the
literal `None` version — then `setup_once()`; `DidNotEnable` is re-raised
unless the descriptor was brought in as a default, any other error is only
logged. -/
def setupIntegrationsLoop (used_as_default disabled : List String) :
    List (String × Integ) → List (String × Integ) →
    Except PyError (List (String × Integ))
  | [], enabled => .ok enabled
  | (identifier, g) :: rest, enabled =>
      if identifier ∈ disabled then
        setupIntegrationsLoop used_as_default disabled rest enabled
      else
        let r : Except PyError Unit := do
          let _ ← check_minimum_version identifier none none
          match g.setupOnce with
          | .ok => .ok ()
          | .didNotEnable m => .error (.didNotEnable m)
          | .failure m => .error (.other m)
        match r with
        | .ok _ =>
            setupIntegrationsLoop used_as_default disabled rest
              (enabled ++ [(identifier, g)])
        | .error (.didNotEnable m) =>
            if identifier ∈ used_as_default then
              setupIntegrationsLoop used_as_default disabled rest enabled
            else .error (.didNotEnable m)
        | .error (.other _) =>
            setupIntegrationsLoop used_as_default disabled rest enabled

/-- `setup_integrations(integrations, with_defaults, ...)`: callers'
integrations keyed by identifier, then the lazily resolved default set
(`defaults`, already resolved — module import is an environment query)
added for identifiers not explicitly given and remembered in
`used_as_default_integration`; then the loop above.  Returns the
`enabled_integrations` dict. -/
def setup_integrations (explicit : List Integ) (defaults : List Integ)
    (disabled : List String) : Except PyError (List (String × Integ)) :=
  let explicitDict : List (String × Integ) :=
    explicit.foldl (fun acc g => Dict.setKey acc g.identifier g) []
  let withDefaults : List (String × Integ) × List String :=
    defaults.foldl
      (fun acc g =>
        if Dict.hasKey acc.1 g.identifier then acc
        else (acc.1 ++ [(g.identifier, g)], acc.2 ++ [g.identifier]))
      (explicitDict, [])
  setupIntegrationsLoop withDefaults.2 disabled withDefaults.1 []

/-! ### Decorators (`src/telescope/decorators.py`)

The wrapped unit of work is modelled by its outcome (`Except String V`:
a returned value or a raised exception's message); elapsed wall-clock time
and sleeps are exact rationals (the Python floats of the claims — 1.0,
2.0, thresholds — are exactly representable, as are their products). -/

/-- `capture_errors(level, tags, extra, reraise)` applied to work with the
given outcome.  Result: the wrapper's own outcome (`.ok none` models
returning `None` after suppression) and how many `capture_exception` calls
were made. -/
def capture_errors (clientBound : Bool) (reraise : Bool)
    {V : Type} (outcome : Except String V) : Except String (Option V) × Nat :=
  if !clientBound then (outcome.map some, 0)
  else
    match outcome with
    | .ok v => (.ok (some v), 0)
    | .error e => if reraise then (.error e, 1) else (.ok none, 1)

/-- `performance_monitor(threshold_ms, tags)` applied to work with the
given outcome and measured elapsed milliseconds.  Returns the wrapper's
outcome and the number of warning-level `capture_message` events: one when
the call returned normally, a client is bound and `elapsed > threshold`;
none on the exception path, which only records span attributes before
re-raising. -/
def performance_monitor (clientBound : Bool) (threshold_ms : ℚ) (elapsed : ℚ)
    {V : Type} (outcome : Except String V) : Except String V × Nat :=
  match outcome with
  | .ok v => (.ok v, if clientBound && decide (elapsed > threshold_ms) then 1 else 0)
  | .error e => (.error e, 0)

/-- Message/sleep bookkeeping of one `retry_with_telemetry` call. -/
structure RetryTrace where
  warnings : Nat
  infos : Nat
  errorCaptures : Nat
  sleeps : List ℚ
deriving DecidableEq, Repr

/-- The `for attempt in range(max_retries + 1)` loop of
`retry_with_telemetry`.  `f attempt` is the wrapped call's outcome on that
attempt; `isRetryable` models the `except exceptions` isinstance test.  A
matching error before the last attempt emits one warning (client bound),
sleeps `curDelay` and multiplies the delay by `backoff`; on the last
attempt it emits one error-capture and re-raises; a non-matching error
escapes the `try` immediately; success after `attempt > 0` emits one info
message. -/
def retryGo (clientBound : Bool) (isRetryable : String → Bool) {V : Type}
    (f : Nat → Except String V) (maxRetries : Nat) (backoff : ℚ) :
    Nat → Nat → ℚ → RetryTrace → Except String V × RetryTrace
  | 0, _, _, tr => (.error "", tr)
  | remaining + 1, attempt, curDelay, tr =>
      match f attempt with
      | .ok v =>
          let tr :=
            if attempt > 0 && clientBound then
              { tr with infos := tr.infos + 1 }
            else tr
          (.ok v, tr)
      | .error e =>
          if isRetryable e then
            if attempt < maxRetries then
              let tr :=
                if clientBound then { tr with warnings := tr.warnings + 1 } else tr
              let tr := { tr with sleeps := tr.sleeps ++ [curDelay] }
              retryGo clientBound isRetryable f maxRetries backoff remaining
                (attempt + 1) (curDelay * backoff) tr
            else
              let tr :=
                if clientBound then
                  { tr with errorCaptures := tr.errorCaptures + 1 }
                else tr
              (.error e, tr)
          else (.error e, tr)

/-- `retry_with_telemetry(max_retries, delay, backoff, exceptions)` applied
to work whose per-attempt outcomes are `f`. -/
def retry_with_telemetry (clientBound : Bool) (isRetryable : String → Bool)
    {V : Type} (f : Nat → Except String V) (maxRetries : Nat)
    (delay backoff : ℚ) : Except String V × RetryTrace :=
  retryGo clientBound isRetryable f maxRetries backoff (maxRetries + 1) 0 delay
    ⟨0, 0, 0, []⟩

/-- The character set of Python's lowercase hex formatting: a decimal
digit or one of the lowercase letters from a to f. -/
def isLowerHexChar (c : Char) : Bool :=
  ('0' ≤ c && c ≤ '9') || ('a' ≤ c && c ≤ 'f')

/-! ## Lemmas: dict operations -/

theorem Dict.find_setKey_self {V : Type} (d : Dict V) (k : String) (v : V) :
    (Dict.setKey d k v).find k = some v := by
  induction d with
  | nil => simp [Dict.setKey, Dict.find]
  | cons kv rest ih =>
      obtain ⟨k', v'⟩ := kv
      by_cases h : k' = k
      · simp [Dict.setKey, h, Dict.find]
      · simp [Dict.setKey, h, Dict.find, ih]

theorem Dict.find_setKey_ne {V : Type} (d : Dict V) (k q : String) (v : V)
    (h : q ≠ k) : (Dict.setKey d k v).find q = d.find q := by
  have hkq : ¬ k = q := fun hh => h hh.symm
  induction d with
  | nil => simp [Dict.setKey, Dict.find, hkq]
  | cons kv rest ih =>
      obtain ⟨k', v'⟩ := kv
      by_cases hk : k' = k
      · subst hk
        simp [Dict.setKey, Dict.find, hkq]
      · simp [Dict.setKey, hk, Dict.find, ih]

/-! ## Lemmas: store plumbing -/

theorem ensureCtx_ctxDict (s : Store) : s.ensureCtx.ctxDict = s.ctxDict := by
  cases h : s.ctx <;> simp [Store.ensureCtx, Store.ctxDict, h]

theorem ensureCtx_heap (s : Store) : s.ensureCtx.heap = s.heap := by
  cases h : s.ctx <;> simp [Store.ensureCtx, h]

theorem ensureCtx_nextRef (s : Store) : s.ensureCtx.nextRef = s.nextRef := by
  cases h : s.ctx <;> simp [Store.ensureCtx, h]

theorem write_ctxDict (s : Store) (r : Nat) (d : Dict String) :
    (s.write r d).ctxDict = s.ctxDict := rfl

theorem write_nextRef (s : Store) (r : Nat) (d : Dict String) :
    (s.write r d).nextRef = s.nextRef := rfl

theorem write_heap (s : Store) (r : Nat) (d : Dict String) (x : Nat) :
    (s.write r d).heap x = if x = r then d else s.heap x := rfl

/-- The well-formedness invariant of reachable stores: every sub-map
reference in the context dict is allocated (below `nextRef`), and
different keys hold different objects. -/
def StoreInv (s : Store) : Prop :=
  (∀ k r, Dict.find s.ctxDict k = some r → r < s.nextRef) ∧
  ∀ k₁ k₂ r₁ r₂, k₁ ≠ k₂ → Dict.find s.ctxDict k₁ = some r₁ →
    Dict.find s.ctxDict k₂ = some r₂ → r₁ ≠ r₂

theorem storeInv_init : StoreInv Store.init := by
  constructor
  · intro k r h
    simp [Store.init, Store.ctxDict, Dict.find] at h
  · intro k₁ k₂ r₁ r₂ _ h
    simp [Store.init, Store.ctxDict, Dict.find] at h

theorem setMergeKey_eq_of_find_some (key : String) (kwargs : Dict String)
    (s : Store) (r : Nat) (hc : Dict.find s.ctxDict key = some r) :
    setMergeKey key kwargs s =
      s.ensureCtx.write r (Dict.update (s.ensureCtx.heap r) kwargs) := by
  have h1 : Dict.find s.ensureCtx.ctxDict key = some r := by
    rw [ensureCtx_ctxDict]; exact hc
  simp only [setMergeKey, h1]

theorem ctxDict_mk (hp : Nat → Dict String) (n : Nat) (c : Dict Nat) :
    Store.ctxDict ⟨hp, n, some c⟩ = c := rfl

theorem setMergeKey_eq_of_find_none (key : String) (kwargs : Dict String)
    (s : Store) (hc : Dict.find s.ctxDict key = none) :
    setMergeKey key kwargs s =
      { heap := fun x => if x = s.nextRef then Dict.update [] kwargs
          else s.heap x
        nextRef := s.nextRef + 1
        ctx := some (Dict.setKey s.ctxDict key s.nextRef) } := by
  simp only [setMergeKey, ensureCtx_ctxDict, ensureCtx_heap, ensureCtx_nextRef,
    hc, Store.write]
  congr 1
  funext x
  by_cases hx : x = s.nextRef <;> simp [hx]

theorem setMergeKey_find_map (key : String) (kwargs : Dict String) (s : Store)
    (h : StoreInv s) (q : String) :
    (Dict.find (setMergeKey key kwargs s).ctxDict q).map
        (setMergeKey key kwargs s).heap =
      if q = key then
        some (Dict.update (((Dict.find s.ctxDict q).map s.heap).getD []) kwargs)
      else (Dict.find s.ctxDict q).map s.heap := by
  obtain ⟨hlt, hdis⟩ := h
  cases hc : Dict.find s.ctxDict key with
  | some r =>
      rw [setMergeKey_eq_of_find_some key kwargs s r hc]
      by_cases hq : q = key
      · subst hq
        simp [write_ctxDict, ensureCtx_ctxDict, hc, write_heap, ensureCtx_heap]
      · rw [if_neg hq]
        cases hq2 : Dict.find s.ctxDict q with
        | none => simp [write_ctxDict, ensureCtx_ctxDict, hq2]
        | some r₂ =>
            have hne : r₂ ≠ r := hdis q key r₂ r hq hq2 hc
            simp [write_ctxDict, ensureCtx_ctxDict, hq2, write_heap,
              ensureCtx_heap, hne]
  | none =>
      rw [setMergeKey_eq_of_find_none key kwargs s hc]
      by_cases hq : q = key
      · subst hq
        simp [ctxDict_mk, Dict.find_setKey_self, hc]
      · rw [if_neg hq]
        cases hq2 : Dict.find s.ctxDict q with
        | none =>
            simp [ctxDict_mk, Dict.find_setKey_ne _ _ _ _ hq, hq2]
        | some r₂ =>
            have hne : r₂ ≠ s.nextRef := Nat.ne_of_lt (hlt q r₂ hq2)
            simp [ctxDict_mk, Dict.find_setKey_ne _ _ _ _ hq, hq2, hne]

theorem setMergeKey_inv (key : String) (kwargs : Dict String) (s : Store)
    (h : StoreInv s) : StoreInv (setMergeKey key kwargs s) := by
  obtain ⟨hlt, hdis⟩ := h
  cases hc : Dict.find s.ctxDict key with
  | some r =>
      rw [setMergeKey_eq_of_find_some key kwargs s r hc]
      constructor
      · intro k r' hk
        rw [write_ctxDict, ensureCtx_ctxDict] at hk
        rw [write_nextRef, ensureCtx_nextRef]
        exact hlt k r' hk
      · intro k₁ k₂ r₁ r₂ hne h₁ h₂
        rw [write_ctxDict, ensureCtx_ctxDict] at h₁ h₂
        exact hdis k₁ k₂ r₁ r₂ hne h₁ h₂
  | none =>
      rw [setMergeKey_eq_of_find_none key kwargs s hc]
      constructor
      · intro k r' hk
        rw [ctxDict_mk] at hk
        show r' < s.nextRef + 1
        by_cases hq : k = key
        · subst hq
          rw [Dict.find_setKey_self] at hk
          injection hk with hk'
          omega
        · rw [Dict.find_setKey_ne _ _ _ _ hq] at hk
          have := hlt k r' hk
          omega
      · intro k₁ k₂ r₁ r₂ hne h₁ h₂
        rw [ctxDict_mk] at h₁ h₂
        by_cases hq₁ : k₁ = key
        · subst hq₁
          rw [Dict.find_setKey_self] at h₁
          injection h₁ with h₁'
          have hq₂ : k₂ ≠ k₁ := fun hh => hne hh.symm
          rw [Dict.find_setKey_ne _ _ _ _ hq₂] at h₂
          have := hlt k₂ r₂ h₂
          omega
        · rw [Dict.find_setKey_ne _ _ _ _ hq₁] at h₁
          by_cases hq₂ : k₂ = key
          · subst hq₂
            rw [Dict.find_setKey_self] at h₂
            injection h₂ with h₂'
            have := hlt k₁ r₁ h₁
            omega
          · rw [Dict.find_setKey_ne _ _ _ _ hq₂] at h₂
            exact hdis k₁ k₂ r₁ r₂ hne h₁ h₂

theorem set_user_eq (a b c : Option String) (d : Dict String) (s : Store) :
    set_user_context a b c d s =
      { heap := fun x => if x = s.nextRef then buildUser a b c d else s.heap x
        nextRef := s.nextRef + 1
        ctx := some (Dict.setKey s.ctxDict "user" s.nextRef) } := by
  simp only [set_user_context, ensureCtx_ctxDict, ensureCtx_heap, ensureCtx_nextRef]

theorem set_user_find_map (a b c : Option String) (d : Dict String) (s : Store)
    (h : StoreInv s) (q : String) :
    (Dict.find (set_user_context a b c d s).ctxDict q).map
        (set_user_context a b c d s).heap =
      if q = "user" then some (buildUser a b c d)
      else (Dict.find s.ctxDict q).map s.heap := by
  obtain ⟨hlt, _⟩ := h
  rw [set_user_eq]
  by_cases hq : q = "user"
  · subst hq
    simp [ctxDict_mk, Dict.find_setKey_self]
  · rw [if_neg hq]
    cases hq2 : Dict.find s.ctxDict q with
    | none => simp [ctxDict_mk, Dict.find_setKey_ne _ _ _ _ hq, hq2]
    | some r₂ =>
        have hne : r₂ ≠ s.nextRef := Nat.ne_of_lt (hlt q r₂ hq2)
        simp [ctxDict_mk, Dict.find_setKey_ne _ _ _ _ hq, hq2, hne]

theorem set_user_inv (a b c : Option String) (d : Dict String) (s : Store)
    (h : StoreInv s) : StoreInv (set_user_context a b c d s) := by
  obtain ⟨hlt, hdis⟩ := h
  rw [set_user_eq]
  constructor
  · intro k r' hk
    rw [ctxDict_mk] at hk
    show r' < s.nextRef + 1
    by_cases hq : k = "user"
    · subst hq
      rw [Dict.find_setKey_self] at hk
      injection hk with hk'
      omega
    · rw [Dict.find_setKey_ne _ _ _ _ hq] at hk
      have := hlt k r' hk
      omega
  · intro k₁ k₂ r₁ r₂ hne h₁ h₂
    rw [ctxDict_mk] at h₁ h₂
    by_cases hq₁ : k₁ = "user"
    · subst hq₁
      rw [Dict.find_setKey_self] at h₁
      injection h₁ with h₁'
      have hq₂ : k₂ ≠ "user" := fun hh => hne hh.symm
      rw [Dict.find_setKey_ne _ _ _ _ hq₂] at h₂
      have := hlt k₂ r₂ h₂
      omega
    · rw [Dict.find_setKey_ne _ _ _ _ hq₁] at h₁
      by_cases hq₂ : k₂ = "user"
      · subst hq₂
        rw [Dict.find_setKey_self] at h₂
        injection h₂ with h₂'
        have := hlt k₁ r₁ h₁
        omega
      · rw [Dict.find_setKey_ne _ _ _ _ hq₂] at h₂
        exact hdis k₁ k₂ r₁ r₂ hne h₁ h₂

/-! ## Simulation: the heap-level store refines the merge-level model -/

theorem snapshot_execCall (s : Store) (h : StoreInv s) (c : CtxCall) :
    (execCall s c).snapshot = absStep s.snapshot c := by
  cases c with
  | tags d =>
      have h1 := setMergeKey_find_map "tags" d s h "user"
      have h2 := setMergeKey_find_map "tags" d s h "tags"
      have h3 := setMergeKey_find_map "tags" d s h "extra"
      simp only [if_pos rfl] at h2
      rw [if_neg (by decide)] at h1
      rw [if_neg (by decide)] at h3
      simp [execCall, set_tags, Store.snapshot, absStep, h1, h2, h3]
  | extra d =>
      have h1 := setMergeKey_find_map "extra" d s h "user"
      have h2 := setMergeKey_find_map "extra" d s h "tags"
      have h3 := setMergeKey_find_map "extra" d s h "extra"
      simp only [if_pos rfl] at h3
      rw [if_neg (by decide)] at h1
      rw [if_neg (by decide)] at h2
      simp [execCall, set_extra, Store.snapshot, absStep, h1, h2, h3]
  | user a b c d =>
      have h1 := set_user_find_map a b c d s h "user"
      have h2 := set_user_find_map a b c d s h "tags"
      have h3 := set_user_find_map a b c d s h "extra"
      simp only [if_pos rfl] at h1
      rw [if_neg (by decide)] at h2
      rw [if_neg (by decide)] at h3
      simp [execCall, Store.snapshot, absStep, h1, h2, h3]

theorem storeInv_execCall (s : Store) (h : StoreInv s) (c : CtxCall) :
    StoreInv (execCall s c) := by
  cases c with
  | tags d => exact setMergeKey_inv "tags" d s h
  | extra d => exact setMergeKey_inv "extra" d s h
  | user a b c d => exact set_user_inv a b c d s h

theorem snapshot_execCalls (cs : List CtxCall) :
    ∀ s : Store, StoreInv s → (execCalls s cs).snapshot = absExec s.snapshot cs := by
  induction cs with
  | nil => intro s _; rfl
  | cons c rest ih =>
      intro s h
      show (execCalls (execCall s c) rest).snapshot
        = absExec (absStep s.snapshot c) rest
      rw [← snapshot_execCall s h c]
      exact ih (execCall s c) (storeInv_execCall s h c)

/-! ## Lemmas: hex formatting and the uuid supply -/

theorem hexDigits_length_le (w : Nat) : ∀ n : Nat, n < 16 ^ (w + 1) →
    (hexDigits n).length ≤ w + 1 := by
  induction w with
  | zero =>
      intro n h
      have h16 : n < 16 := by simpa using h
      unfold hexDigits
      rw [dif_pos h16]
      simp
  | succ w ih =>
      intro n h
      by_cases h16 : n < 16
      · unfold hexDigits
        rw [dif_pos h16]
        simp
      · unfold hexDigits
        rw [dif_neg h16]
        rw [List.length_append]
        have hdiv : n / 16 < 16 ^ (w + 1) := by
          rw [Nat.div_lt_iff_lt_mul (by norm_num)]
          calc n < 16 ^ (w + 1 + 1) := h
            _ = 16 ^ (w + 1) * 16 := by ring
        have := ih (n / 16) hdiv
        simp only [List.length_cons, List.length_nil]
        omega

theorem digitChar_lowerHex (d : Nat) (h : d < 16) :
    isLowerHexChar (Nat.digitChar d) = true := by
  interval_cases d <;> decide

theorem hexDigits_lowerHex (n : Nat) : ∀ c ∈ hexDigits n, isLowerHexChar c = true := by
  induction n using Nat.strong_induction_on with
  | _ n ih =>
      by_cases h16 : n < 16
      · unfold hexDigits
        rw [dif_pos h16]
        intro c hc
        simp at hc
        subst hc
        exact digitChar_lowerHex n h16
      · unfold hexDigits
        rw [dif_neg h16]
        intro c hc
        rw [List.mem_append] at hc
        rcases hc with hc | hc
        · exact ih (n / 16) (Nat.div_lt_self (by omega) (by omega)) c hc
        · simp at hc
          subst hc
          exact digitChar_lowerHex (n % 16) (Nat.mod_lt _ (by omega))

theorem pyHex_data (w n : Nat) :
    (pyHex w n).data = List.replicate (w - (hexDigits n).length) '0' ++ hexDigits n :=
  rfl

theorem pyHex_length (w n : Nat) (hw : 0 < w) (h : n < 16 ^ w) :
    (pyHex w n).length = w := by
  have hle : (hexDigits n).length ≤ w := by
    obtain ⟨w', rfl⟩ : ∃ w', w = w' + 1 := ⟨w - 1, by omega⟩
    exact hexDigits_length_le w' n h
  show (List.replicate (w - (hexDigits n).length) '0' ++ hexDigits n).length = w
  rw [List.length_append, List.length_replicate]
  omega

theorem pyHex_lowerHex (w n : Nat) :
    ∀ c ∈ (pyHex w n).data, isLowerHexChar c = true := by
  rw [pyHex_data]
  intro c hc
  rw [List.mem_append] at hc
  rcases hc with hc | hc
  · rw [List.eq_of_mem_replicate hc]
    decide
  · exact hexDigits_lowerHex n c hc

theorem uuid4_ne_empty (n : Nat) : uuid4 n ≠ "" := by
  intro h
  have hd := congrArg String.data h
  simp [uuid4] at hd

theorem uuid4_injective (m n : Nat) (h : uuid4 m = uuid4 n) : m = n := by
  have hd := congrArg (fun s : String => s.data.length) h
  simp [uuid4] at hd
  exact hd

theorem noneIfEmpty_getD (d : Dict String) : (noneIfEmpty d).getD [] = d := by
  by_cases h : d = [] <;> simp [noneIfEmpty, h]

theorem except_error_bind {α β γ : Type} (e : α) (f : β → Except α γ) :
    ((Except.error e : Except α β) >>= f) = Except.error e := rfl

/-- Because the `setup_integrations` loop passes the literal `None` as the
version, `_check_minimum_version` raises on every iteration: the
accumulator never grows, so whenever the loop returns at all it returns
its initial accumulator. -/
theorem setupIntegrationsLoop_never_enables (uad dis : List String) :
    ∀ (ints acc : List (String × Integ)),
      (setupIntegrationsLoop uad dis ints acc).toOption.getD acc = acc := by
  intro ints
  induction ints with
  | nil => intro acc; rfl
  | cons p rest ih =>
      intro acc
      obtain ⟨ident, g⟩ := p
      by_cases hd : ident ∈ dis
      · simp [setupIntegrationsLoop, hd, ih]
      · by_cases hu : ident ∈ uad
        · simp [setupIntegrationsLoop, hd, hu, check_minimum_version,
            except_error_bind, ih]
        · simp [setupIntegrationsLoop, hd, hu, check_minimum_version,
            except_error_bind, Except.toOption]

/-! ## Claims -/

/-- C1 (code bug): the claim says `with_context` restores the exact
pre-call context snapshot on every exit path, including the contents of
the nested tags/extra/user sub-maps.  The code saves only a SHALLOW copy
of the top-level context dict; the override's `set_tags` mutates the
pre-existing tags dict in place, so its pre-call contents leak past the
exit.  Concretely: with prior context `tags = {"env": "prod"}`, wrapping a
no-op in `with_context(tags={"env": "staging"})` leaves
`get_context()["tags"] = {"env": "staging"}` after exit, not the saved
`{"env": "prod"}`. -/
theorem with_context_leaks_preexisting_tags :
    (set_tags [("env", "prod")] Store.init).snapshot
        = ⟨none, some [("env", "prod")], none⟩ ∧
    ((with_context [("tags", [("env", "staging")])] (fun s => (s, Exit.normal))
        (set_tags [("env", "prod")] Store.init)).1).snapshot
        = ⟨none, some [("env", "staging")], none⟩ ∧
    ((with_context [("tags", [("env", "staging")])] (fun s => (s, Exit.normal))
        (set_tags [("env", "prod")] Store.init)).1).snapshot
        ≠ (set_tags [("env", "prod")] Store.init).snapshot := by
  refine ⟨by decide, by decide, by decide⟩

/-- C2 (counterexample): `set_user_context` is not a merge-update — a
second call drops the `id` field set by the first, so an untouched key
does not persist. -/
theorem set_user_context_replaces_cex :
    (execCalls Store.init [CtxCall.user (some "1") none none []]).snapshot.user
        = some [("id", "1")] ∧
    (execCalls Store.init [CtxCall.user (some "1") none none [],
        CtxCall.user none (some "bob") none []]).snapshot.user
        = some [("username", "bob")] ∧
    Dict.find ((execCalls Store.init [CtxCall.user (some "1") none none [],
        CtxCall.user none (some "bob") none []]).snapshot.user.getD []) "id"
        = none := by
  refine ⟨by decide, by decide, by decide⟩

/-- C2 (amended): for every sequence of `set_tags`/`set_extra`/
`set_user_context` calls in one fresh scope, `get_context()` equals the
fold of the spec-level steps: `set_tags`/`set_extra` merge-update their
sub-map (later keys override, untouched keys persist), while
`set_user_context` replaces the user sub-map with one built from its own
arguments alone. -/
theorem context_mutators_cumulative_merge (cs : List CtxCall) :
    (execCalls Store.init cs).snapshot = absExec ⟨none, none, none⟩ cs := by
  have h0 : Store.init.snapshot = ⟨none, none, none⟩ := rfl
  have h := snapshot_execCalls cs Store.init storeInv_init
  rw [h0] at h
  exact h

/-- C3 (counterexample): a direct `TelescopeClient.capture_exception` call
does not read the Context Store at all — with the store holding
`tags = {"env": "prod"}` and the caller passing
`tags = {"component": "payment"}`, the event's tags are only the caller's,
not the claimed merge. -/
theorem capture_exception_ignores_store_cex :
    (set_tags [("env", "prod")] Store.init).snapshot.tags
        = some [("env", "prod")] ∧
    (capture_exception 0 none "boom" "ValueError" "error"
        (some [("component", "payment")]) none none none).tags
        = [("component", "payment")] ∧
    (capture_exception 0 none "boom" "ValueError" "error"
        (some [("component", "payment")]) none none none).tags
        ≠ Dict.update [("env", "prod")] [("component", "payment")] := by
  refine ⟨by decide, by decide, by decide⟩

/-- C3 (amended): the context-merge happens in
`capture_context_in_exception` (the context-aware capture helper), not in
the client's capture methods: there the event's tags/extra/user are the
Context Store's sub-maps merge-updated with the caller's, caller values
winning on collision; in particular the spec's end-to-end example holds
through that helper. -/
theorem capture_context_in_exception_merges (n : Nat) (span : Option SpanInfo)
    (msg ty : String) (userAdd tagsAdd extraAdd : Option (Dict String))
    (rest : Dict String) (s : Store) :
    ((capture_context_in_exception true n span msg ty userAdd tagsAdd extraAdd
          rest s).1).map Event.tags
      = some (Dict.update (s.snapshot.tags.getD []) (tagsAdd.getD [])) ∧
    ((capture_context_in_exception true n span msg ty userAdd tagsAdd extraAdd
          rest s).1).map Event.user
      = some (some (Dict.update (s.snapshot.user.getD []) (userAdd.getD []))) ∧
    ((capture_context_in_exception true n span msg ty userAdd tagsAdd extraAdd
          rest s).1).map Event.extra
      = some (Dict.update
          (Dict.update (s.snapshot.extra.getD []) (extraAdd.getD [])) rest) ∧
    ((capture_context_in_exception true 0 none "boom" "ValueError"
          none (some [("component", "payment")]) none []
          (set_tags [("env", "prod")] Store.init)).1).map Event.tags
      = some [("env", "prod"), ("component", "payment")] := by
  refine ⟨?_, ?_, ?_, by decide⟩ <;>
    cases userAdd <;> cases tagsAdd <;> cases extraAdd <;>
      simp [capture_context_in_exception, capture_exception, noneIfEmpty_getD,
        Store.snapshot, Dict.update, writeBack]

/-- C4: every capture call returns normally with event id equal to the
fresh uuid draw, for every transport outcome (success, non-2xx, network
error); the id is a non-empty string, and distinct draws give distinct
ids. -/
theorem capture_never_throws_unique_ids :
    (∀ n, uuid4 n ≠ "") ∧
    (∀ m n, m ≠ n → uuid4 m ≠ uuid4 n) ∧
    (∀ n span msg ty lvl tags extra user fp outcome,
      capture_exception_run n span msg ty lvl tags extra user fp outcome
        = .ok (capture_exception n span msg ty lvl tags extra user fp,
               send_event outcome, uuid4 n)) ∧
    (∀ n span msg lvl tags extra outcome,
      capture_message_run n span msg lvl tags extra outcome
        = .ok (capture_message n span msg lvl tags extra,
               send_event outcome, uuid4 n)) := by
  refine ⟨uuid4_ne_empty, ?_, ?_, ?_⟩
  · intro m n h he
    exact h (uuid4_injective m n he)
  · intro n span msg ty lvl tags extra user fp outcome
    rfl
  · intro n span msg lvl tags extra outcome
    rfl

/-- Witness for C4 at concrete inputs, including a failing transport. -/
theorem capture_never_throws_unique_ids_witness :
    uuid4 0 ≠ "" ∧ uuid4 0 ≠ uuid4 1 ∧
    capture_exception_run 0 none "boom" "ValueError" "error" none none none none
        (.httpStatus 500)
      = .ok (capture_exception 0 none "boom" "ValueError" "error" none none none
          none, send_event (.httpStatus 500), uuid4 0) :=
  ⟨capture_never_throws_unique_ids.1 0,
   capture_never_throws_unique_ids.2.1 0 1 (by decide),
   capture_never_throws_unique_ids.2.2.1 0 none "boom" "ValueError" "error"
     none none none none (.httpStatus 500)⟩

/-- C5: when a recording span is active at capture time, both capture
methods put exactly its ids in `contexts.trace`, formatted as fixed-width
lowercase hex of 32 and 16 digits; with no active span, or a non-recording
one, the trace entry is empty. -/
theorem trace_correlation_iff_recording_span :
    (∀ tid sid, tid < 16 ^ 32 → sid < 16 ^ 16 →
      ∀ n msg ty lvl tags extra user fp,
        (capture_exception n (some ⟨tid, sid, true⟩) msg ty lvl tags extra user
            fp).trace = some ⟨pyHex 32 tid, pyHex 16 sid⟩ ∧
        (capture_message n (some ⟨tid, sid, true⟩) msg lvl tags extra).trace
          = some ⟨pyHex 32 tid, pyHex 16 sid⟩ ∧
        (pyHex 32 tid).length = 32 ∧ (pyHex 16 sid).length = 16 ∧
        (∀ c ∈ (pyHex 32 tid).data, isLowerHexChar c = true) ∧
        (∀ c ∈ (pyHex 16 sid).data, isLowerHexChar c = true)) ∧
    (∀ sp : SpanInfo, sp.isRecording = false →
      ∀ n msg ty lvl tags extra user fp,
        (capture_exception n (some sp) msg ty lvl tags extra user fp).trace
            = none ∧
        (capture_message n (some sp) msg lvl tags extra).trace = none) ∧
    (∀ n msg ty lvl tags extra user fp,
      (capture_exception n none msg ty lvl tags extra user fp).trace = none ∧
      (capture_message n none msg lvl tags extra).trace = none) := by
  refine ⟨?_, ?_, ?_⟩
  · intro tid sid htid hsid n msg ty lvl tags extra user fp
    exact ⟨rfl, rfl, pyHex_length 32 tid (by norm_num) htid,
      pyHex_length 16 sid (by norm_num) hsid,
      pyHex_lowerHex 32 tid, pyHex_lowerHex 16 sid⟩
  · intro sp hsp n msg ty lvl tags extra user fp
    constructor <;> simp [capture_exception, capture_message, traceContext, hsp]
  · intro n msg ty lvl tags extra user fp
    exact ⟨rfl, rfl⟩

/-- Witness for C5 at a concrete recording span. -/
theorem trace_correlation_witness :
    (capture_exception 0 (some ⟨3, 5, true⟩) "boom" "ValueError" "error" none
        none none none).trace = some ⟨pyHex 32 3, pyHex 16 5⟩ ∧
    (pyHex 32 3).length = 32 ∧ (pyHex 16 5).length = 16 := by
  have h := trace_correlation_iff_recording_span.1 3 5 (by decide) (by decide)
    0 "boom" "ValueError" "error" none none none none
  exact ⟨h.1, h.2.2.1, h.2.2.2.1⟩

/-- C6 (counterexample): for a descriptor whose `setup_once` raises
`DidNotEnable`, two `IntegrationRegistry.setup` calls run `setup(client)`
zero times, not exactly once as claimed; the second call is still a no-op. -/
theorem registry_setup_hooks_cex :
    (registrySetup RegistryState.empty
        ⟨"logging", HookBehavior.didNotEnable "requires logging 2", HookBehavior.ok⟩).2
      = ⟨1, 0⟩ ∧
    (registrySetup (registrySetup RegistryState.empty
        ⟨"logging", HookBehavior.didNotEnable "requires logging 2",
          HookBehavior.ok⟩).1
        ⟨"logging", HookBehavior.didNotEnable "requires logging 2",
          HookBehavior.ok⟩).2
      = ⟨0, 0⟩ := by
  refine ⟨by decide, by decide⟩

/-- C6 (amended): for a descriptor with a truthy identifier not yet
processed, two consecutive `setup` calls run `setup_once` exactly once;
`setup(client)` runs exactly once when `setup_once` returns normally and
zero times otherwise; the second call is a no-op on the registry state and
runs nothing; the installed set gains the identifier exactly when both
hooks return normally. -/
theorem registry_setup_idempotent (s : RegistryState) (g : Integ)
    (hid : g.identifier ≠ "") (hproc : g.identifier ∉ s.processed) :
    (registrySetup s g).2.setupOnceRuns = 1 ∧
    (registrySetup s g).2.setupRuns
      = (if g.setupOnce = HookBehavior.ok then 1 else 0) ∧
    (registrySetup (registrySetup s g).1 g).1 = (registrySetup s g).1 ∧
    (registrySetup (registrySetup s g).1 g).2 = ⟨0, 0⟩ ∧
    (registrySetup s g).1.installed
      = (if g.setupOnce = HookBehavior.ok ∧ g.setupClient = HookBehavior.ok
          then s.installed ++ [g.identifier] else s.installed) := by
  have hmem : g.identifier ∈ s.processed ++ [g.identifier] := by simp
  cases ho : g.setupOnce <;> cases hc : g.setupClient <;>
    simp [registrySetup, hid, hproc, ho, hc, hmem]

/-- Witness for C6 at a concrete well-behaved descriptor. -/
theorem registry_setup_idempotent_witness :
    (registrySetup RegistryState.empty
        ⟨"logging", HookBehavior.ok, HookBehavior.ok⟩).2.setupOnceRuns = 1 ∧
    (registrySetup (registrySetup RegistryState.empty
        ⟨"logging", HookBehavior.ok, HookBehavior.ok⟩).1
        ⟨"logging", HookBehavior.ok, HookBehavior.ok⟩).2 = ⟨0, 0⟩ := by
  have h := registry_setup_idempotent RegistryState.empty
    ⟨"logging", HookBehavior.ok, HookBehavior.ok⟩ (by decide) (by decide)
  exact ⟨h.1, h.2.2.2.1⟩

/-- C7 (code bug): `setup_integrations` passes the literal `None` as the
version to `_check_minimum_version`, which then raises `DidNotEnable`
("Unparsable ... version.") for every descriptor — even one, like the
logging integration, with no minimum-version entry at all.  Hence an
explicitly requested descriptor always raises to the caller, an
auto-discovered one is always silently skipped, `setup_once` never runs,
and the returned enabled set is always empty — never containing a
descriptor that meets its version requirement, contrary to the claim. -/
theorem setup_integrations_version_check_bug :
    setup_integrations [⟨"logging", HookBehavior.ok, HookBehavior.ok⟩] [] []
      = .error (.didNotEnable "Unparsable logging version.") ∧
    setup_integrations [] [⟨"logging", HookBehavior.ok, HookBehavior.ok⟩] []
      = .ok [] ∧
    (∀ explicit defaults disabled,
      (setup_integrations explicit defaults disabled).toOption.getD [] = []) := by
  refine ⟨rfl, rfl, ?_⟩
  intro explicit defaults disabled
  exact setupIntegrationsLoop_never_enables _ _ _ []

/-- C8: with `max_retries = 3`, `delay = 1`, `backoff = 2` around work
failing twice retryably then succeeding: exactly 2 warning messages, 1
success-after-retry info message, no error capture, the wrapped result
returned, sleeps `[1, 2]` summing to at least `1 + 2`; and for any wrapped
work, a first error that does not match the retryable tuple propagates
immediately with no message and no sleep. -/
theorem retry_with_telemetry_spec :
    (∀ (V : Type) (f : Nat → Except String V) (isR : String → Bool)
        (e0 e1 : String) (v : V),
      f 0 = .error e0 → f 1 = .error e1 → f 2 = .ok v →
      isR e0 = true → isR e1 = true →
      retry_with_telemetry true isR f 3 1 2 = (.ok v, ⟨2, 1, 0, [1, 2]⟩) ∧
      (retry_with_telemetry true isR f 3 1 2).2.sleeps.sum ≥ 1 + 2) ∧
    (∀ (V : Type) (f : Nat → Except String V) (isR : String → Bool)
        (e : String) (maxRetries : Nat) (delay backoff : ℚ),
      f 0 = .error e → isR e = false →
      retry_with_telemetry true isR f maxRetries delay backoff
        = (.error e, ⟨0, 0, 0, []⟩)) := by
  constructor
  · intro V f isR e0 e1 v h0 h1 h2 hr0 hr1
    have hmain : retry_with_telemetry true isR f 3 1 2
        = (.ok v, ⟨2, 1, 0, [1, 2]⟩) := by
      simp [retry_with_telemetry, retryGo, h0, h1, h2, hr0, hr1]
    refine ⟨hmain, ?_⟩
    rw [hmain]
    norm_num
  · intro V f isR e maxRetries delay backoff hf hR
    simp [retry_with_telemetry, retryGo, hf, hR]

/-- Witness for C8 at a concrete fail-fail-succeed function. -/
theorem retry_with_telemetry_witness :
    retry_with_telemetry true (fun _ => true)
        (fun n => if n = 0 then .error "a" else if n = 1 then .error "b"
          else (.ok 7 : Except String Nat)) 3 1 2
      = (.ok 7, ⟨2, 1, 0, [1, 2]⟩) :=
  (retry_with_telemetry_spec.1 Nat
    (fun n => if n = 0 then .error "a" else if n = 1 then .error "b"
      else (.ok 7 : Except String Nat))
    (fun _ => true) "a" "b" 7 rfl rfl rfl rfl rfl).1

/-- C9 (counterexample): work that raises after exceeding the threshold
(elapsed 100 > threshold 50) emits no warning message — the exception
path of `performance_monitor` re-raises without calling
`capture_message`, so the claimed success/failure independence fails. -/
theorem performance_monitor_error_path_cex :
    ((100 : ℚ) > 50) ∧
    (performance_monitor true 50 100 (.error "boom" : Except String Nat)).2
      = 0 := by
  constructor
  · norm_num
  · rfl

/-- C9 (amended): with a client bound, `performance_monitor` emits exactly
one warning-level message when the wrapped call returns normally and the
elapsed time exceeds the threshold, and none otherwise — in particular
none when the wrapped call raises, whatever the elapsed time; the wrapped
outcome is passed through unchanged either way. -/
theorem performance_monitor_spec (threshold elapsed : ℚ) :
    (∀ (V : Type) (v : V),
      performance_monitor true threshold elapsed (.ok v)
        = (.ok v, if elapsed > threshold then 1 else 0)) ∧
    (∀ (V : Type) (e : String),
      performance_monitor true threshold elapsed (.error e : Except String V)
        = (.error e, 0)) ∧
    (∀ (V : Type) (v : V),
      performance_monitor false threshold elapsed (.ok v) = (.ok v, 0)) := by
  refine ⟨?_, ?_, ?_⟩
  · intro V v
    simp [performance_monitor]
  · intro V e
    rfl
  · intro V v
    rfl

/-- C10: with no client bound, `capture_errors` runs the wrapped work with
no `try/except` at all, so an exception propagates even with
`reraise = False` and nothing is captured; with a client bound and
`reraise = False` the exception is captured once and `None` returned; with
`reraise = True` it is captured once and re-raised; successful work passes
through untouched. -/
theorem capture_errors_no_client_propagates :
    (∀ (V : Type) (e : String) (reraise : Bool),
      capture_errors false reraise (.error e : Except String V)
        = (.error e, 0)) ∧
    (∀ (V : Type) (e : String),
      capture_errors true false (.error e : Except String V) = (.ok none, 1)) ∧
    (∀ (V : Type) (e : String),
      capture_errors true true (.error e : Except String V) = (.error e, 1)) ∧
    (∀ (V : Type) (v : V) (clientBound reraise : Bool),
      capture_errors clientBound reraise (.ok v) = (.ok (some v), 0)) := by
  refine ⟨?_, ?_, ?_, ?_⟩
  · intro V e reraise
    rfl
  · intro V e
    rfl
  · intro V e
    rfl
  · intro V v clientBound reraise
    cases clientBound <;> rfl

end Telescope
